import Mathlib

/-!
Verification of the multi-agent research workflow
(`workflows/langgraph_workflow.py`, class `ResearchWorkflow`).

The Python code is shallowly embedded: strings become `String`/`List Char`,
Python dicts with a fixed key set become structures, `None`/missing keys become
`Option`, Python floats (only ever summed here) become exact rationals `ℚ`,
exceptions become `Except`/explicit outcome parameters.  Each regex
substitution performed by `_clean_text` is embedded as a fueled left-to-right,
non-overlapping, greedy scanner; the fuel is the input length, which always
suffices, and fuel-exhaustion returns the remaining input unchanged.
-/

namespace MultiAgent

/-- Python `\s` (ASCII range), the class used by `re.sub(r'\s+', ' ', text)`. -/
def isPySpace (c : Char) : Bool :=
  c == ' ' || c == '\t' || c == '\n' || c == '\r' || c == '\x0b' || c == '\x0c'

/-- Python `\w` (ASCII fragment): letters, digits and underscore. -/
def isWordChar (c : Char) : Bool :=
  c.isAlphanum || c == '_'

/-- The character allowlist of `re.sub(r"[^\w\s.,!?;:()\-\'\"\n]", '', text)`:
word characters, whitespace, and the punctuation `.,!?;:()-'"` (plus `\n`,
already covered by `\s`). -/
def isAllowedChar (c : Char) : Bool :=
  isWordChar c || isPySpace c || c == '.' || c == ',' || c == '!' || c == '?' ||
  c == ';' || c == ':' || c == '(' || c == ')' || c == '-' || c == '\'' ||
  c == '"' || c == '\n'

/-- `re.sub(r'<[^>]+>', '', text)`: delete every leftmost, non-overlapping
occurrence of `<`, one or more non-`>` characters, `>`. -/
def subTagF : Nat → List Char → List Char
  | 0, l => l
  | _ + 1, [] => []
  | n + 1, c :: rest =>
    if c = '<' then
      match rest.dropWhile (fun x => x != '>') with
      | _ :: rest' =>
        if rest.takeWhile (fun x => x != '>') = [] then c :: subTagF n rest
        else subTagF n rest'
      | [] => c :: subTagF n rest
    else c :: subTagF n rest

/-- `re.sub(r'd([^d]+)d', r'\1', text)` for a one-character delimiter `d`
(used with `d = '*'` and `d = '_'`): keep the delimited body, drop the
delimiters. -/
def subSingleF (d : Char) : Nat → List Char → List Char
  | 0, l => l
  | _ + 1, [] => []
  | n + 1, c :: rest =>
    if c = d then
      match rest.dropWhile (fun x => x != d) with
      | _ :: rest' =>
        if rest.takeWhile (fun x => x != d) = [] then c :: subSingleF d n rest
        else rest.takeWhile (fun x => x != d) ++ subSingleF d n rest'
      | [] => c :: subSingleF d n rest
    else c :: subSingleF d n rest

/-- `re.sub(r'dd([^d]+)dd', r'\1', text)` for a doubled one-character delimiter
(used with `d = '*'` and `d = '_'`). -/
def subDoubleF (d : Char) : Nat → List Char → List Char
  | 0, l => l
  | _ + 1, [] => []
  | n + 1, c :: rest =>
    if c = d then
      match rest with
      | c2 :: rest2 =>
        if c2 = d then
          match rest2.dropWhile (fun x => x != d) with
          | _ :: d2 :: rest' =>
            if rest2.takeWhile (fun x => x != d) ≠ [] ∧ d2 = d then
              rest2.takeWhile (fun x => x != d) ++ subDoubleF d n rest'
            else c :: subDoubleF d n rest
          | _ => c :: subDoubleF d n rest
        else c :: subDoubleF d n rest
      | [] => [c]
    else c :: subDoubleF d n rest

/-- `re.sub(r'\s+', ' ', text)`: each maximal whitespace run becomes one space. -/
def collapseWSF : Nat → List Char → List Char
  | 0, l => l
  | _ + 1, [] => []
  | n + 1, c :: rest =>
    if isPySpace c then ' ' :: collapseWSF n (rest.dropWhile isPySpace)
    else c :: collapseWSF n rest

/-- Remove trailing whitespace (the right half of Python `str.strip()`). -/
def dropTrailingF : List Char → List Char
  | [] => []
  | c :: rest =>
    match dropTrailingF rest with
    | [] => if isPySpace c then [] else [c]
    | r => c :: r

/-- Python `str.strip()`: drop leading and trailing whitespace. -/
def pyStripChars (l : List Char) : List Char :=
  dropTrailingF (l.dropWhile isPySpace)

/-- Python `str.strip()` on `String`. -/
def pyStrip (s : String) : String :=
  String.mk (pyStripChars s.data)

/-- Run a fueled scanner with its own length as fuel (always enough: every
step consumes at least one character). -/
def runF (f : Nat → List Char → List Char) (l : List Char) : List Char :=
  f l.length l

/-- The full substitution chain of `ResearchWorkflow._clean_text`, in source
order: tags, `**…**`, `*…*`, `__…__`, `_…_`, whitespace collapse, character
allowlist filter, strip. -/
def cleanChars (l : List Char) : List Char :=
  pyStripChars ((runF collapseWSF (runF (subSingleF '_') (runF (subDoubleF '_')
    (runF (subSingleF '*') (runF (subDoubleF '*')
      (runF subTagF l)))))).filter isAllowedChar)

/-- `ResearchWorkflow._clean_text`.  The guard `if not text or not
isinstance(text, str): return ""` is subsumed: non-string input is outside the
typed model and the empty string already maps to itself. -/
def _clean_text (s : String) : String :=
  String.mk (cleanChars s.data)

/-- Loop of `ResearchWorkflow._clean_list_items`: skip falsy (empty) items,
clean each remaining item, keep it when the cleaned text is non-empty and not
yet in `seen`, recording emitted cleaned texts in `seen` (the Python `set` is
modelled as the list of already-emitted values). -/
def cleanItemsLoop : List String → List String → List String
  | [], _ => []
  | item :: rest, seen =>
    if item = "" then cleanItemsLoop rest seen
    else
      if _clean_text item ≠ "" ∧ _clean_text item ∉ seen then
        _clean_text item :: cleanItemsLoop rest (_clean_text item :: seen)
      else cleanItemsLoop rest seen

/-- `ResearchWorkflow._clean_list_items` (items modelled as strings; `str(item)`
is then the identity). -/
def _clean_list_items (items : List String) : List String :=
  cleanItemsLoop items []

/-- Python `str.lower()` (ASCII case folding), used on the agent selection. -/
def pyLower (s : String) : String :=
  String.mk (s.data.map Char.toLower)

/-- Python `s[:n]` on a string. -/
def strTake (n : Nat) (s : String) : String :=
  String.mk (s.data.take n)

/-- One formatted source dict as built by the adapters (`title`, `url`,
`summary`, `confidence`, `date`, and — only filled by the api adapter —
`source_type` and `authors`). -/
structure AgentSource where
  title : String
  url : String
  summary : String
  confidence : ℚ
  date : String
  source_type : String := ""
  authors : List String := []
deriving DecidableEq

/-- A per-agent result dict (`AgentResult`).  Missing keys are the defaults:
Python `.get(key, default)` on an absent key yields exactly these values. -/
structure AgentDict where
  agent_name : String
  error : Option String := none
  sources : List AgentSource := []
  summary : String := ""
  findings : List String := []
  insights : List String := []
  cost : ℚ := 0
  tokens : Nat := 0
deriving DecidableEq

/-- Python truthiness of `agent_result.get("error")`: an absent key or an empty
string is falsy. -/
def hasError (r : AgentDict) : Bool :=
  match r.error with
  | none => false
  | some s => s != ""

/-- `[str(f).strip() for f in findings if f]` with string items. -/
def gatherItems (l : List String) : List String :=
  l.filterMap (fun f => if f = "" then none else some (pyStrip f))

/-- Accumulators of the `_consolidate_results` loop. -/
structure ConsolidateAcc where
  all_findings : List String
  all_insights : List String
  best_summary : String

/-- The per-agent loop of `_consolidate_results`: error results are skipped;
findings/insights of the others are stripped and appended (the Python guard
`if findings and isinstance(findings, list)` only skips extending by an empty
list, which is a no-op); a non-blank summary becomes `best_summary` when the
agent is `perplexity` or no summary was chosen yet. -/
def consolidateLoop : List AgentDict → ConsolidateAcc → ConsolidateAcc
  | [], acc => acc
  | r :: rest, acc =>
    if hasError r then consolidateLoop rest acc
    else
      let fs := acc.all_findings ++ gatherItems r.findings
      let ins := acc.all_insights ++ gatherItems r.insights
      let best :=
        if r.summary ≠ "" ∧ pyStrip r.summary ≠ "" then
          if r.agent_name = "perplexity" ∨ acc.best_summary = "" then r.summary
          else acc.best_summary
        else acc.best_summary
      consolidateLoop rest ⟨fs, ins, best⟩

/-- `ResearchWorkflow._generate_fallback_summary`. -/
def _generate_fallback_summary (agent_results : List AgentDict)
    (total_sources : Nat) : String :=
  "Research completed using " ++
    toString (agent_results.filter (fun r => !hasError r)).length ++
    " specialized agents. Collected " ++ toString total_sources ++
    " sources from multiple channels."

/-- The three fields written by `_consolidate_results`. -/
structure ConsolidatedFields where
  key_findings : List String
  insights : List String
  summary : String
deriving DecidableEq

/-- `ResearchWorkflow._consolidate_results`, as a pure function of the
`agent_results` list and the already-accumulated `total_sources`. -/
def _consolidate_results (agent_results : List AgentDict)
    (total_sources : Nat) : ConsolidatedFields :=
  let acc := consolidateLoop agent_results ⟨[], [], ""⟩
  { key_findings := (_clean_list_items acc.all_findings).take 10
    insights := (_clean_list_items acc.all_insights).take 8
    summary :=
      if acc.best_summary ≠ "" then _clean_text acc.best_summary
      else _generate_fallback_summary agent_results total_sources }

/-- Outcome of one adapter coroutine as observed through
`asyncio.gather(..., return_exceptions=True)`: either the raised exception
(carried as its `str(e)` message) or the returned dict.  The three adapters
always return dicts (see their models below), so the source's
`isinstance(response, dict)` check is always satisfied here. -/
abbrev AdapterOutcome := Except String AgentDict

/-- The fixed dispatch order of the registry checks in `execute`:
`perplexity`, then `youtube`, then `api`. -/
def registryOrder : List String := ["perplexity", "youtube", "api"]

/-- The ids actually dispatched for a selection: the registry ids (in registry
order) whose name occurs, lowercased, in the selection. -/
def dispatchedIds (agent_selection : List String) : List String :=
  registryOrder.filter (fun a => (agent_selection.map pyLower).contains a)

/-- The response-processing loop of `execute`: an exception becomes an error
dict `{agent_name, error: str(e), sources: [], cost: 0, tokens: 0}`; a dict is
appended as-is and its `sources`/`cost`/`tokens` are added to the running
totals (regardless of its `error` field, exactly as in the source).  Returns
`(agent_results, (total_sources, total_cost, total_tokens))`. -/
def processResponses : List (String × AdapterOutcome) → List AgentDict × Nat × ℚ × Nat
  | [] => ([], 0, 0, 0)
  | (name, Except.error e) :: rest =>
    let pr := processResponses rest
    ({ agent_name := name, error := some e } :: pr.1, pr.2)
  | (_, Except.ok r) :: rest =>
    let pr := processResponses rest
    (r :: pr.1, (r.sources.length + pr.2.1, r.cost + pr.2.2.1, r.tokens + pr.2.2.2))

/-- The final consolidated report of `execute` (wall-clock fields `timestamp`
and `execution_time` are outside the functional model). -/
structure WorkflowResult where
  query : String
  domain : String
  agent_results : List AgentDict
  summary : String
  key_findings : List String
  insights : List String
  total_sources : Nat
  total_cost : ℚ
  total_tokens : Nat
  error : Option String
deriving DecidableEq

/-- `ResearchWorkflow.execute`.  The concurrent gather is modelled by the
`outcome` map from agent id to that adapter's terminal outcome;
`asyncio.gather` preserves task order, so responses are processed in the task
creation order `dispatchedIds agent_selection`. -/
def execute (query domain : String) (agent_selection : List String)
    (outcome : String → AdapterOutcome) : WorkflowResult :=
  let tasks := dispatchedIds agent_selection
  if tasks = [] then
    { query := query, domain := domain, agent_results := [], summary := "",
      key_findings := [], insights := [], total_sources := 0, total_cost := 0,
      total_tokens := 0, error := some "No agents selected for execution" }
  else
    let pr := processResponses (tasks.map (fun a => (a, outcome a)))
    let cf := _consolidate_results pr.1 pr.2.1
    { query := query, domain := domain, agent_results := pr.1,
      summary := cf.summary, key_findings := cf.key_findings,
      insights := cf.insights, total_sources := pr.2.1,
      total_cost := pr.2.2.1, total_tokens := pr.2.2.2, error := none }

/-- An upstream Python step that may raise.  `raise isImportError msg` carries
whether the exception is an `ImportError` (the adapters' `except` clauses
distinguish it) and its `str(e)` message. -/
inductive Upstream (α : Type) where
  | raise (isImportError : Bool) (msg : String)
  | ret (v : α)

/-- One source dict of the deep-search collaborator payload (keys read via
`.get` with defaults, so each is optional). -/
structure PerplexitySource where
  title : Option String := none
  url : Option String := none
  snippet : Option String := none
deriving DecidableEq

/-- The deep-search collaborator's result dict
(`self.perplexity_agent.execute(...)`). -/
structure PerplexityResult where
  success : Bool := false
  error : Option String := none
  sources : List PerplexitySource := []
  executive_summary : Option String := none
  key_findings : List String := []
  insights : List String := []
  estimated_cost : ℚ := 0
  tokens_used : Nat := 0
  timestamp : Option String := none
deriving DecidableEq

/-- Error-result dict shared by the perplexity and youtube adapters:
`{agent_name, error, sources: [], cost: 0, tokens: 0}`. -/
def errResult (name msg : String) : AgentDict :=
  { agent_name := name, error := some msg }

/-- `ResearchWorkflow._execute_perplexity`.  Stages in source order:
the `from agents.perplexity_agent import ...` statement (`importStep`, `some
msg` when it raises `ImportError msg`), the `PERPLEXITY_API_KEY` lookup, and
the awaited agent call (`callStep`; `ret none` models a falsy result).  The
enclosing `try/except` turns every raise into an error dict. -/
def _execute_perplexity (importStep : Option String) (api_key : Option String)
    (callStep : Upstream (Option PerplexityResult)) : AgentDict :=
  match importStep with
  | some m => errResult "perplexity" ("Import error: " ++ m)
  | none =>
    match api_key with
    | none => errResult "perplexity" "PERPLEXITY_API_KEY not found"
    | some _ =>
      match callStep with
      | .raise true m => errResult "perplexity" ("Import error: " ++ m)
      | .raise false m => errResult "perplexity" ("Exception: " ++ m)
      | .ret none => errResult "perplexity" "No result returned"
      | .ret (some r) =>
        if !r.success then
          errResult "perplexity" (r.error.getD "Unknown error")
        else
          { agent_name := "perplexity",
            sources := r.sources.map (fun s =>
              { title := _clean_text (s.title.getD "Untitled"),
                url := s.url.getD "",
                summary := _clean_text (s.snippet.getD "No description"),
                confidence := 9 / 2,
                date := strTake 10 (r.timestamp.getD "") }),
            summary := _clean_text (r.executive_summary.getD ""),
            findings := _clean_list_items r.key_findings,
            insights := _clean_list_items r.insights,
            cost := r.estimated_cost,
            tokens := r.tokens_used }

/-- One video dict of the video collaborator payload. -/
structure YoutubeVideo where
  title : Option String := none
  url : Option String := none
  description : Option String := none
  published_at : Option String := none
deriving DecidableEq

/-- The `youtube_results` dict of `analyze_youtube`'s return value. -/
structure YoutubeData where
  sources : List YoutubeVideo := []
  summary : Option String := none
  findings : List String := []
  insights : List String := []
deriving DecidableEq

/-- `ResearchWorkflow._execute_youtube`.  The key lookup precedes the import in
the source; the import and the `analyze_youtube` call are merged into
`callStep` (both raise inside the same `try`, and the single `except` clause
uses `str(e)` verbatim for every exception kind).  `ret none` models
`result.get("youtube_results", {})` finding no key, which yields the
all-defaults empty data. -/
def _execute_youtube (api_key : Option String)
    (callStep : Upstream (Option YoutubeData)) : AgentDict :=
  match api_key with
  | none => errResult "youtube" "YOUTUBE_API_KEY not configured"
  | some _ =>
    match callStep with
    | .raise _ m => errResult "youtube" m
    | .ret data =>
      let youtube_data := data.getD {}
      { agent_name := "youtube",
        sources := youtube_data.sources.map (fun v =>
          { title := _clean_text (v.title.getD "Untitled"),
            url := v.url.getD "",
            summary := _clean_text (v.description.getD "No description"),
            confidence := 7 / 2,
            date := strTake 10 (v.published_at.getD "") }),
        summary := _clean_text (youtube_data.summary.getD ""),
        findings := _clean_list_items youtube_data.findings,
        insights := _clean_list_items youtube_data.insights,
        cost := 0,
        tokens := 0 }

/-- One paper dict of the academic/news collaborator payload (`ptype` models
the `"type"` key; non-dict papers are outside the typed model). -/
structure ApiPaper where
  title : Option String := none
  url : Option String := none
  summary : Option String := none
  ptype : Option String := none
  published : Option String := none
  authors : List String := []
deriving DecidableEq

/-- The academic/news collaborator's result dict (`self.api_agent.execute`). -/
structure ApiResult where
  papers : List ApiPaper := []
  summary : Option String := none
  findings : List String := []
  insights : List String := []
deriving DecidableEq

/-- Error-result dict of the api adapter, which also carries explicit empty
`summary`/`findings`/`insights` keys (same values as the model defaults). -/
def errResultApi (msg : String) : AgentDict :=
  { agent_name := "api", error := some msg }

/-- Formatting of one paper (1-based index `idx`), from the body of the
per-paper loop in `_execute_api`.  The inner `try/except` cannot fire on this
pure data. -/
def formatPaper (idx : Nat) (p : ApiPaper) : AgentSource :=
  let paper_type := p.ptype.getD "unknown"
  { title :=
      match p.title with
      | none => "Source " ++ toString idx
      | some t => if t = "" then "Source " ++ toString idx else _clean_text t,
    url := p.url.getD "",
    summary :=
      match p.summary with
      | none => "No description"
      | some s => if s = "" then "No description" else _clean_text s,
    confidence := if paper_type = "academic" then 21 / 5 else 19 / 5,
    date :=
      match p.published with
      | none => ""
      | some d => if d = "" then "" else strTake 10 d,
    source_type := paper_type,
    authors := p.authors }

/-- `ResearchWorkflow._execute_api`.  `importStep` is the
`from agents.api_agent import APIAgent` statement; `callStep` the awaited
agent call, with `ret none` modelling a falsy or non-dict result. -/
def _execute_api (importStep : Option String)
    (callStep : Upstream (Option ApiResult)) : AgentDict :=
  match importStep with
  | some m => errResultApi ("Import error: " ++ m)
  | none =>
    match callStep with
    | .raise true m => errResultApi ("Import error: " ++ m)
    | .raise false m => errResultApi ("Error: " ++ m)
    | .ret none => errResultApi "Invalid result from API agent"
    | .ret (some r) =>
      let formatted_sources :=
        r.papers.enum.map (fun pi => formatPaper (pi.1 + 1) pi.2)
      let academic_count :=
        (formatted_sources.filter (fun s => s.source_type == "academic")).length
      let news_count :=
        (formatted_sources.filter (fun s => s.source_type == "news")).length
      let summary :=
        match r.summary with
        | none =>
          "Retrieved " ++ toString formatted_sources.length ++ " sources: " ++
            toString academic_count ++ " academic papers and " ++
            toString news_count ++ " news articles"
        | some s =>
          if s = "" then
            "Retrieved " ++ toString formatted_sources.length ++ " sources: " ++
              toString academic_count ++ " academic papers and " ++
              toString news_count ++ " news articles"
          else s
      { agent_name := "api",
        sources := formatted_sources,
        summary := _clean_text summary,
        findings := _clean_list_items r.findings,
        insights := _clean_list_items r.insights,
        cost := 0,
        tokens := 0 }

/-- Spec-side order-preserving deduplication keeping first occurrences,
comparing by exact string equality (loop with a `seen` accumulator). -/
def dedupFirstAux : List String → List String → List String
  | [], _ => []
  | x :: rest, seen =>
    if x ∈ seen then dedupFirstAux rest seen
    else x :: dedupFirstAux rest (x :: seen)

/-- Spec-side order-preserving deduplication by exact string equality.
Stated from the claim's words ("removing duplicates by exact string equality
while keeping the first occurrence of each string in order"), for comparison
with `_clean_list_items`. -/
def dedupFirst (l : List String) : List String :=
  dedupFirstAux l []

/-- The flattened findings the consolidation loop accumulates: the
(stripped, non-falsy) findings of the non-error results, in dispatch order. -/
def gatherFindings (rs : List AgentDict) : List String :=
  (rs.filter (fun r => !hasError r)).flatMap (fun r => gatherItems r.findings)

/-- Same as `gatherFindings`, for insights. -/
def gatherInsights (rs : List AgentDict) : List String :=
  (rs.filter (fun r => !hasError r)).flatMap (fun r => gatherItems r.insights)

/-- A result that can supply the consolidated summary: non-error with a
summary that is non-empty after stripping. -/
def goodSummary (r : AgentDict) : Bool :=
  !hasError r && r.summary != "" && pyStrip r.summary != ""

/-- Projection of the consolidation loop to its `best_summary` component
(which never depends on the findings/insights accumulators). -/
def bestLoop : List AgentDict → String → String
  | [], b => b
  | r :: rest, b =>
    if hasError r then bestLoop rest b
    else
      if r.summary ≠ "" ∧ pyStrip r.summary ≠ "" then
        if r.agent_name = "perplexity" ∨ b = "" then bestLoop rest r.summary
        else bestLoop rest b
      else bestLoop rest b

/-- The head of the list, if any, is not whitespace. -/
def headNotSpace : List Char → Bool
  | [] => true
  | c :: _ => !isPySpace c

/-- Every whitespace character in the list is a plain `' '` not followed by
further whitespace (the shape of `collapseWSF` output). -/
def singleSpaced : List Char → Bool
  | [] => true
  | c :: rest => (!isPySpace c || (c == ' ' && headNotSpace rest)) && singleSpaced rest

/-- Concrete outcome map used by witnesses: every adapter returns a plain
success dict named after itself. -/
def okNamed : String → AdapterOutcome :=
  fun a => .ok { agent_name := a }

/-- Concrete outcome map used by the C5 witness: perplexity succeeds with one
source, cost 3/2 and 5 tokens; youtube returns an error dict with zeroed
fields. -/
def mixedOutcome : String → AdapterOutcome := fun a =>
  if a = "perplexity" then
    .ok { agent_name := "perplexity", cost := 3 / 2, tokens := 5,
          sources := [{ title := "t", url := "u", summary := "s",
                        confidence := 9 / 2, date := "" }] }
  else .ok { agent_name := "youtube", error := some "E" }

/-- Concrete outcome map used by the C9 witness: the perplexity coroutine
raises `"boom"`, the others return success dicts. -/
def raisingOutcome : String → AdapterOutcome := fun a =>
  if a = "perplexity" then .error "boom" else .ok { agent_name := a }

/- ------------------------------------------------------------------
Theorems.  First the sanitizer layer (claims about `_clean_text`).
------------------------------------------------------------------ -/

theorem subTagF_id : ∀ (n : Nat) (l : List Char), (∀ c ∈ l, c ≠ '<') →
    subTagF n l = l
  | 0, _, _ => rfl
  | _ + 1, [], _ => rfl
  | n + 1, c :: rest, h => by
    have hc : c ≠ '<' := h c (List.mem_cons_self c rest)
    have hrest : ∀ x ∈ rest, x ≠ '<' := fun x hx => h x (List.mem_cons_of_mem _ hx)
    simp only [subTagF, if_neg hc]
    exact congrArg (c :: ·) (subTagF_id n rest hrest)

theorem subSingleF_id : ∀ (n : Nat) (l : List Char) (d : Char),
    (∀ c ∈ l, c ≠ d) → subSingleF d n l = l
  | 0, _, _, _ => rfl
  | _ + 1, [], _, _ => rfl
  | n + 1, c :: rest, d, h => by
    have hc : c ≠ d := h c (List.mem_cons_self c rest)
    have hrest : ∀ x ∈ rest, x ≠ d := fun x hx => h x (List.mem_cons_of_mem _ hx)
    simp only [subSingleF, if_neg hc]
    exact congrArg (c :: ·) (subSingleF_id n rest d hrest)

theorem subDoubleF_id : ∀ (n : Nat) (l : List Char) (d : Char),
    (∀ c ∈ l, c ≠ d) → subDoubleF d n l = l
  | 0, _, _, _ => rfl
  | _ + 1, [], _, _ => rfl
  | n + 1, c :: rest, d, h => by
    have hc : c ≠ d := h c (List.mem_cons_self c rest)
    have hrest : ∀ x ∈ rest, x ≠ d := fun x hx => h x (List.mem_cons_of_mem _ hx)
    simp only [subDoubleF, if_neg hc]
    exact congrArg (c :: ·) (subDoubleF_id n rest d hrest)

theorem headNotSpace_dropWhile : ∀ l : List Char,
    headNotSpace (l.dropWhile isPySpace) = true
  | [] => rfl
  | c :: rest => by
    rw [List.dropWhile_cons]
    cases hc : isPySpace c with
    | true => simpa using headNotSpace_dropWhile rest
    | false => simp [headNotSpace, hc]

theorem dropWhile_of_headNotSpace {l : List Char} (h : headNotSpace l = true) :
    l.dropWhile isPySpace = l := by
  cases l with
  | nil => rfl
  | cons c rest =>
    have hc : isPySpace c = false := by simpa [headNotSpace] using h
    rw [List.dropWhile_cons, hc]
    simp

theorem collapseWSF_cons_pos {c : Char} {n : Nat} {rest : List Char}
    (h : isPySpace c = true) :
    collapseWSF (n + 1) (c :: rest) = ' ' :: collapseWSF n (rest.dropWhile isPySpace) := by
  simp [collapseWSF, h]

theorem collapseWSF_cons_neg {c : Char} {n : Nat} {rest : List Char}
    (h : isPySpace c = false) :
    collapseWSF (n + 1) (c :: rest) = c :: collapseWSF n rest := by
  simp [collapseWSF, h]

theorem singleSpaced_cons (c : Char) (rest : List Char) :
    singleSpaced (c :: rest) =
      ((!isPySpace c || (c == ' ' && headNotSpace rest)) && singleSpaced rest) := rfl

theorem collapse_props : ∀ (n : Nat) (l : List Char), l.length ≤ n →
    singleSpaced (collapseWSF n l) = true ∧
      (headNotSpace l = true → headNotSpace (collapseWSF n l) = true)
  | 0, l, h => by
    have hl : l = [] := List.eq_nil_of_length_eq_zero (Nat.le_zero.mp h)
    subst hl
    exact ⟨rfl, fun _ => rfl⟩
  | n + 1, [], _ => ⟨rfl, fun _ => rfl⟩
  | n + 1, c :: rest, h => by
    have hlen : rest.length ≤ n := by simpa using h
    cases hc : isPySpace c with
    | true =>
      have hdlen : (rest.dropWhile isPySpace).length ≤ n :=
        le_trans (List.Sublist.length_le (List.dropWhile_sublist _)) hlen
      obtain ⟨hss, hhd⟩ := collapse_props n (rest.dropWhile isPySpace) hdlen
      have hhead := hhd (headNotSpace_dropWhile rest)
      rw [collapseWSF_cons_pos hc]
      constructor
      · rw [singleSpaced_cons, hss, hhead]
        decide
      · intro hns
        rw [headNotSpace, hc] at hns
        cases hns
    | false =>
      obtain ⟨hss, _⟩ := collapse_props n rest hlen
      rw [collapseWSF_cons_neg hc]
      constructor
      · rw [singleSpaced_cons, hss, hc]
        simp
      · intro _
        rw [headNotSpace, hc]
        rfl

theorem mem_collapseWSF : ∀ (n : Nat) (l : List Char) (x : Char),
    x ∈ collapseWSF n l → x ∈ l ∨ x = ' '
  | 0, _, _, hx => Or.inl hx
  | _ + 1, [], _, hx => absurd hx (List.not_mem_nil _)
  | n + 1, c :: rest, x, hx => by
    cases hc : isPySpace c with
    | true =>
      rw [collapseWSF_cons_pos hc] at hx
      simp only [List.mem_cons] at hx
      rcases hx with hx | hx
      · exact Or.inr hx
      · rcases mem_collapseWSF n _ x hx with hm | hm
        · exact Or.inl (List.mem_cons_of_mem _ (List.dropWhile_subset _ hm))
        · exact Or.inr hm
    | false =>
      rw [collapseWSF_cons_neg hc] at hx
      simp only [List.mem_cons] at hx
      rcases hx with hx | hx
      · exact Or.inl (hx ▸ List.mem_cons_self c rest)
      · rcases mem_collapseWSF n rest x hx with hm | hm
        · exact Or.inl (List.mem_cons_of_mem _ hm)
        · exact Or.inr hm

theorem collapseWSF_id : ∀ (n : Nat) (l : List Char),
    singleSpaced l = true → collapseWSF n l = l
  | 0, _, _ => rfl
  | _ + 1, [], _ => rfl
  | n + 1, c :: rest, h => by
    rw [singleSpaced_cons, Bool.and_eq_true, Bool.or_eq_true] at h
    obtain ⟨hhead, hrest⟩ := h
    cases hc : isPySpace c with
    | true =>
      have hsp : c = ' ' ∧ headNotSpace rest = true := by
        rcases hhead with hx | hx
        · rw [hc] at hx; cases hx
        · simp only [Bool.and_eq_true, beq_iff_eq] at hx; exact hx
      rw [collapseWSF_cons_pos hc, dropWhile_of_headNotSpace hsp.2,
        collapseWSF_id n rest hrest, hsp.1]
    | false =>
      rw [collapseWSF_cons_neg hc, collapseWSF_id n rest hrest]

theorem singleSpaced_dropWhile : ∀ l : List Char, singleSpaced l = true →
    singleSpaced (l.dropWhile isPySpace) = true
  | [], _ => rfl
  | c :: rest, h => by
    rw [List.dropWhile_cons]
    cases hc : isPySpace c with
    | true =>
      rw [singleSpaced_cons, Bool.and_eq_true] at h
      simpa using singleSpaced_dropWhile rest h.2
    | false => simpa using h

theorem dropTrailingF_cons_nil {c : Char} {rest : List Char}
    (h : dropTrailingF rest = []) :
    dropTrailingF (c :: rest) = if isPySpace c then [] else [c] := by
  simp [dropTrailingF, h]

theorem dropTrailingF_cons_cons {c y : Char} {rest ys : List Char}
    (h : dropTrailingF rest = y :: ys) :
    dropTrailingF (c :: rest) = c :: y :: ys := by
  simp [dropTrailingF, h]

theorem dropTrailingF_subset : ∀ (l : List Char) (x : Char),
    x ∈ dropTrailingF l → x ∈ l
  | [], x, hx => absurd hx (List.not_mem_nil x)
  | c :: rest, x, hx => by
    cases hr : dropTrailingF rest with
    | nil =>
      rw [dropTrailingF_cons_nil hr] at hx
      by_cases hc : isPySpace c = true
      · rw [if_pos hc] at hx
        exact absurd hx (List.not_mem_nil x)
      · rw [if_neg hc] at hx
        simp only [List.mem_singleton] at hx
        exact hx ▸ List.mem_cons_self c rest
    | cons y ys =>
      rw [dropTrailingF_cons_cons hr] at hx
      simp only [List.mem_cons] at hx
      rcases hx with hx | hx
      · exact hx ▸ List.mem_cons_self c rest
      · exact List.mem_cons_of_mem _ (dropTrailingF_subset rest x (by rw [hr]; simpa using hx))

theorem headNotSpace_dropTrailingF : ∀ l : List Char, headNotSpace l = true →
    headNotSpace (dropTrailingF l) = true
  | [], _ => rfl
  | c :: rest, h => by
    have hc : isPySpace c = false := by
      rw [headNotSpace] at h
      simpa using h
    cases hr : dropTrailingF rest with
    | nil =>
      rw [dropTrailingF_cons_nil hr, hc]
      simp [headNotSpace, hc]
    | cons y ys =>
      rw [dropTrailingF_cons_cons hr]
      simp [headNotSpace, hc]

theorem singleSpaced_dropTrailingF : ∀ l : List Char, singleSpaced l = true →
    singleSpaced (dropTrailingF l) = true
  | [], _ => rfl
  | c :: rest, h => by
    rw [singleSpaced_cons, Bool.and_eq_true] at h
    cases hr : dropTrailingF rest with
    | nil =>
      rw [dropTrailingF_cons_nil hr]
      by_cases hc : isPySpace c = true
      · rw [if_pos hc]; rfl
      · have hc' : isPySpace c = false := by simpa using hc
        rw [if_neg hc]
        simp [singleSpaced, headNotSpace, hc']
    | cons y ys =>
      rw [dropTrailingF_cons_cons hr, singleSpaced_cons]
      have h2 : singleSpaced (y :: ys) = true := by
        rw [← hr]; exact singleSpaced_dropTrailingF rest h.2
      rw [h2, Bool.and_true]
      rcases Bool.or_eq_true_iff.mp h.1 with hx | hx
      · rw [hx]; rfl
      · rw [Bool.and_eq_true] at hx
        have hy : headNotSpace (y :: ys) = true := by
          rw [← hr]; exact headNotSpace_dropTrailingF rest hx.2
        rw [Bool.or_eq_true_iff]
        exact Or.inr (by rw [Bool.and_eq_true]; exact ⟨hx.1, hy⟩)

theorem dropTrailingF_idem : ∀ l : List Char,
    dropTrailingF (dropTrailingF l) = dropTrailingF l
  | [] => rfl
  | c :: rest => by
    cases hr : dropTrailingF rest with
    | nil =>
      rw [dropTrailingF_cons_nil hr]
      by_cases hc : isPySpace c = true
      · rw [if_pos hc]; rfl
      · have hc' : isPySpace c = false := by simpa using hc
        rw [if_neg hc]
        rw [show dropTrailingF [c] = if isPySpace c then [] else [c] from
          dropTrailingF_cons_nil rfl, if_neg hc]
    | cons y ys =>
      rw [dropTrailingF_cons_cons hr]
      have IH : dropTrailingF (y :: ys) = y :: ys := by
        rw [← hr]; exact dropTrailingF_idem rest
      exact dropTrailingF_cons_cons IH

theorem headNotSpace_pyStripChars (l : List Char) :
    headNotSpace (pyStripChars l) = true :=
  headNotSpace_dropTrailingF _ (headNotSpace_dropWhile l)

theorem pyStripChars_idem (l : List Char) :
    pyStripChars (pyStripChars l) = pyStripChars l := by
  unfold pyStripChars
  rw [dropWhile_of_headNotSpace (headNotSpace_dropTrailingF _ (headNotSpace_dropWhile l)),
    dropTrailingF_idem]

theorem singleSpaced_pyStripChars {l : List Char} (h : singleSpaced l = true) :
    singleSpaced (pyStripChars l) = true :=
  singleSpaced_dropTrailingF _ (singleSpaced_dropWhile l h)

theorem mem_pyStripChars (l : List Char) (x : Char) (hx : x ∈ pyStripChars l) :
    x ∈ l :=
  List.dropWhile_subset _ (dropTrailingF_subset _ x hx)

/-- On input whose characters are all in the allowlist and which contains no
underscore, the five markup substitutions are the identity and cleaning is
whitespace collapse followed by strip. -/
theorem cleanChars_of_plain {l : List Char} (h1 : ∀ c ∈ l, isAllowedChar c = true)
    (h2 : ∀ c ∈ l, c ≠ '_') :
    cleanChars l = pyStripChars (runF collapseWSF l) := by
  have hlt : ∀ c ∈ l, c ≠ '<' := fun c hc heq => by
    subst heq; exact absurd (h1 _ hc) (by decide)
  have hst : ∀ c ∈ l, c ≠ '*' := fun c hc heq => by
    subst heq; exact absurd (h1 _ hc) (by decide)
  unfold cleanChars runF
  rw [subTagF_id _ _ hlt, subDoubleF_id _ _ _ hst, subSingleF_id _ _ _ hst,
    subDoubleF_id _ _ _ h2, subSingleF_id _ _ _ h2]
  have hmem : ∀ c ∈ collapseWSF l.length l, isAllowedChar c = true := fun c hc => by
    rcases mem_collapseWSF _ _ _ hc with hm | hm
    · exact h1 _ hm
    · subst hm; decide
  rw [List.filter_eq_self.mpr hmem]

/-- Idempotence of the character-level cleaner on allowlisted,
underscore-free input. -/
theorem cleanChars_idem_of_plain {l : List Char}
    (h1 : ∀ c ∈ l, isAllowedChar c = true) (h2 : ∀ c ∈ l, c ≠ '_') :
    cleanChars (cleanChars l) = cleanChars l := by
  have hstep : cleanChars l = pyStripChars (collapseWSF l.length l) :=
    cleanChars_of_plain h1 h2
  have htmem : ∀ c ∈ cleanChars l, c ∈ l ∨ c = ' ' := by
    intro c hc
    rw [hstep] at hc
    exact mem_collapseWSF _ _ _ (mem_pyStripChars _ _ hc)
  have ht1 : ∀ c ∈ cleanChars l, isAllowedChar c = true := fun c hc => by
    rcases htmem c hc with hm | hm
    · exact h1 _ hm
    · subst hm; decide
  have ht2 : ∀ c ∈ cleanChars l, c ≠ '_' := fun c hc heq => by
    subst heq
    rcases htmem _ hc with hm | hm
    · exact h2 _ hm rfl
    · exact absurd hm (by decide)
  have hss : singleSpaced (cleanChars l) = true := by
    rw [hstep]
    exact singleSpaced_pyStripChars (collapse_props _ _ le_rfl).1
  rw [cleanChars_of_plain ht1 ht2]
  have hcol : runF collapseWSF (cleanChars l) = cleanChars l :=
    collapseWSF_id _ _ hss
  rw [hcol, hstep, pyStripChars_idem]

/-- C2, counterexample: the sanitizer is not idempotent.  On `"__a_x_"` the
first pass rewrites `_a_` to `a` leaving `_ax_`, which the second pass rewrites
again to `ax`. -/
theorem C2_counterexample :
    ¬ (_clean_text (_clean_text "__a_x_") = _clean_text "__a_x_") := by
  decide

/-- C2, amended: `_clean_text` is idempotent on strings all of whose
characters are in the sanitizer's own allowlist and which contain no
underscore.  (Full idempotence fails: underscores can survive a first pass and
be rewritten by the second, and removing a disallowed character can merge two
whitespace runs into a double space that only the second pass collapses, as in
`"a $ b"`.) -/
theorem C2_amended (s : String) (h1 : ∀ c ∈ s.data, isAllowedChar c = true)
    (h2 : ∀ c ∈ s.data, c ≠ '_') :
    _clean_text (_clean_text s) = _clean_text s :=
  congrArg String.mk (cleanChars_idem_of_plain h1 h2)

/-- Witness for `C2_amended` at the concrete input `"a  b."`. -/
theorem C2_witness :
    (∀ c ∈ ("a  b." : String).data, isAllowedChar c = true) ∧
      (∀ c ∈ ("a  b." : String).data, c ≠ '_') ∧
      _clean_text (_clean_text "a  b.") = _clean_text "a  b." :=
  ⟨by decide, by decide, C2_amended "a  b." (by decide) (by decide)⟩

/- ------------------------------------------------------------------
Consolidation layer.
------------------------------------------------------------------ -/

theorem goodSummary_iff {r : AgentDict} :
    goodSummary r = true ↔
      (hasError r = false ∧ r.summary ≠ "" ∧ pyStrip r.summary ≠ "") := by
  simp [goodSummary, Bool.and_eq_true, and_assoc]

theorem consolidateLoop_best : ∀ (rs : List AgentDict) (acc : ConsolidateAcc),
    (consolidateLoop rs acc).best_summary = bestLoop rs acc.best_summary
  | [], _ => rfl
  | r :: rest, acc => by
    simp only [consolidateLoop, bestLoop]
    split_ifs <;> exact consolidateLoop_best rest _

theorem consolidateLoop_findings : ∀ (rs : List AgentDict) (acc : ConsolidateAcc),
    (consolidateLoop rs acc).all_findings = acc.all_findings ++ gatherFindings rs
  | [], acc => by simp [consolidateLoop, gatherFindings]
  | r :: rest, acc => by
    simp only [consolidateLoop]
    by_cases he : hasError r = true
    · rw [if_pos he, consolidateLoop_findings rest acc]
      have : gatherFindings (r :: rest) = gatherFindings rest := by
        simp [gatherFindings, List.filter_cons, he]
      rw [this]
    · rw [if_neg he]
      split_ifs <;>
      · rw [consolidateLoop_findings rest _]
        have : gatherFindings (r :: rest) =
            gatherItems r.findings ++ gatherFindings rest := by
          simp [gatherFindings, List.filter_cons,
            (by simpa using he : hasError r = false)]
        rw [this, List.append_assoc]

theorem consolidateLoop_insights : ∀ (rs : List AgentDict) (acc : ConsolidateAcc),
    (consolidateLoop rs acc).all_insights = acc.all_insights ++ gatherInsights rs
  | [], acc => by simp [consolidateLoop, gatherInsights]
  | r :: rest, acc => by
    simp only [consolidateLoop]
    by_cases he : hasError r = true
    · rw [if_pos he, consolidateLoop_insights rest acc]
      have : gatherInsights (r :: rest) = gatherInsights rest := by
        simp [gatherInsights, List.filter_cons, he]
      rw [this]
    · rw [if_neg he]
      split_ifs <;>
      · rw [consolidateLoop_insights rest _]
        have : gatherInsights (r :: rest) =
            gatherItems r.insights ++ gatherInsights rest := by
          simp [gatherInsights, List.filter_cons,
            (by simpa using he : hasError r = false)]
        rw [this, List.append_assoc]

theorem bestLoop_append : ∀ (l1 l2 : List AgentDict) (b : String),
    bestLoop (l1 ++ l2) b = bestLoop l2 (bestLoop l1 b)
  | [], _, _ => rfl
  | r :: rest, l2, b => by
    simp only [List.cons_append, bestLoop]
    split_ifs <;> exact bestLoop_append rest l2 _

theorem bestLoop_of_none : ∀ (rs : List AgentDict) (b : String),
    (∀ r ∈ rs, goodSummary r = false) → bestLoop rs b = b
  | [], _, _ => rfl
  | r :: rest, b, h => by
    have hr := h r (List.mem_cons_self r rest)
    have hrest : ∀ x ∈ rest, goodSummary x = false :=
      fun x hx => h x (List.mem_cons_of_mem _ hx)
    simp only [bestLoop]
    by_cases he : hasError r = true
    · rw [if_pos he]
      exact bestLoop_of_none rest b hrest
    · rw [if_neg he]
      have hcond : ¬ (r.summary ≠ "" ∧ pyStrip r.summary ≠ "") := by
        intro hc
        have : goodSummary r = true :=
          goodSummary_iff.mpr ⟨by simpa using he, hc.1, hc.2⟩
        rw [this] at hr
        cases hr
      rw [if_neg hcond]
      exact bestLoop_of_none rest b hrest

theorem bestLoop_of_ne : ∀ (rs : List AgentDict) (b : String), b ≠ "" →
    (∀ r ∈ rs, goodSummary r = true → r.agent_name ≠ "perplexity") →
    bestLoop rs b = b
  | [], _, _, _ => rfl
  | r :: rest, b, hb, h => by
    have hrest : ∀ x ∈ rest, goodSummary x = true → x.agent_name ≠ "perplexity" :=
      fun x hx => h x (List.mem_cons_of_mem _ hx)
    simp only [bestLoop]
    by_cases he : hasError r = true
    · rw [if_pos he]
      exact bestLoop_of_ne rest b hb hrest
    · rw [if_neg he]
      by_cases hcond : r.summary ≠ "" ∧ pyStrip r.summary ≠ ""
      · rw [if_pos hcond]
        have hnp : r.agent_name ≠ "perplexity" :=
          h r (List.mem_cons_self r rest)
            (goodSummary_iff.mpr ⟨by simpa using he, hcond.1, hcond.2⟩)
        rw [if_neg (by simp [hnp, hb])]
        exact bestLoop_of_ne rest b hb hrest
      · rw [if_neg hcond]
        exact bestLoop_of_ne rest b hb hrest

theorem bestLoop_firstGood : ∀ rs : List AgentDict,
    (∀ r ∈ rs, goodSummary r = true → r.agent_name ≠ "perplexity") →
    bestLoop rs "" =
      (match rs.find? goodSummary with
       | some p => p.summary
       | none => "")
  | [], _ => rfl
  | r :: rest, h => by
    have hrest : ∀ x ∈ rest, goodSummary x = true → x.agent_name ≠ "perplexity" :=
      fun x hx => h x (List.mem_cons_of_mem _ hx)
    simp only [bestLoop]
    by_cases he : hasError r = true
    · have hgr : goodSummary r = false := by
        simp [goodSummary, he]
      rw [if_pos he, List.find?_cons_of_neg _ (by simp [hgr]),
        bestLoop_firstGood rest hrest]
    · rw [if_neg he]
      by_cases hcond : r.summary ≠ "" ∧ pyStrip r.summary ≠ ""
      · have hgr : goodSummary r = true :=
          goodSummary_iff.mpr ⟨by simpa using he, hcond.1, hcond.2⟩
        rw [if_pos hcond, if_pos (Or.inr trivial), List.find?_cons_of_pos _ hgr]
        exact bestLoop_of_ne rest r.summary hcond.1 hrest
      · have hgr : goodSummary r = false := by
        { cases hg : goodSummary r with
          | false => rfl
          | true =>
            rcases goodSummary_iff.mp hg with ⟨_, h1, h2⟩
            exact absurd ⟨h1, h2⟩ hcond }
        rw [if_neg hcond, List.find?_cons_of_neg _ (by simp [hgr]),
          bestLoop_firstGood rest hrest]

theorem cleanItemsLoop_eq : ∀ (items seen : List String),
    cleanItemsLoop items seen =
      dedupFirstAux ((items.map _clean_text).filter (fun t => t != "")) seen
  | [], _ => rfl
  | item :: rest, seen => by
    simp only [cleanItemsLoop, List.map_cons, List.filter_cons]
    by_cases hi : item = ""
    · subst hi
      rw [if_pos rfl]
      have h0 : _clean_text "" = "" := rfl
      rw [h0]
      simp only [bne_self_eq_false, Bool.false_eq_true, if_false]
      exact cleanItemsLoop_eq rest seen
    · rw [if_neg hi]
      by_cases hc : _clean_text item = ""
      · have hno : ¬ (_clean_text item ≠ "" ∧ _clean_text item ∉ seen) :=
          fun h => h.1 hc
        rw [if_neg hno, hc]
        simp only [bne_self_eq_false, Bool.false_eq_true, if_false]
        exact cleanItemsLoop_eq rest seen
      · have hbne : (_clean_text item != "") = true := by simpa using hc
        rw [hbne]
        simp only [if_true]
        by_cases hmem : _clean_text item ∈ seen
        · have hno : ¬ (_clean_text item ≠ "" ∧ _clean_text item ∉ seen) :=
            fun h => h.2 hmem
          rw [if_neg hno, dedupFirstAux, if_pos hmem]
          exact cleanItemsLoop_eq rest seen
        · rw [if_pos ⟨hc, hmem⟩, dedupFirstAux, if_neg hmem]
          exact congrArg (_clean_text item :: ·) (cleanItemsLoop_eq rest _)

theorem clean_list_items_eq (l : List String) :
    _clean_list_items l =
      dedupFirst ((l.map _clean_text).filter (fun t => t != "")) :=
  cleanItemsLoop_eq l []

theorem consolidate_key_findings (rs : List AgentDict) (ts : Nat) :
    (_consolidate_results rs ts).key_findings =
      (_clean_list_items (gatherFindings rs)).take 10 := by
  simp only [_consolidate_results]
  rw [consolidateLoop_findings rs ⟨[], [], ""⟩]
  rfl

theorem consolidate_insights (rs : List AgentDict) (ts : Nat) :
    (_consolidate_results rs ts).insights =
      (_clean_list_items (gatherInsights rs)).take 8 := by
  simp only [_consolidate_results]
  rw [consolidateLoop_insights rs ⟨[], [], ""⟩]
  rfl

theorem consolidate_summary (rs : List AgentDict) (ts : Nat) :
    (_consolidate_results rs ts).summary =
      (if bestLoop rs "" ≠ "" then _clean_text (bestLoop rs "")
       else _generate_fallback_summary rs ts) := by
  simp only [_consolidate_results]
  rw [consolidateLoop_best rs ⟨[], [], ""⟩]

/-- C4, counterexample: consolidation deduplicates findings by their
*sanitized* value, not by exact string equality.  The two distinct findings
`"a"` and `"a*"` both sanitize to `"a"`, so the code keeps one entry while the
claim's exact-equality pipeline keeps both. -/
theorem C4_counterexample :
    (_consolidate_results
        [({ agent_name := "x", findings := ["a", "a*"] } : AgentDict)] 0).key_findings = ["a"]
    ∧ (dedupFirst ["a", "a*"]).take 10 = ["a", "a*"]
    ∧ (["a"] : List String) ≠ ["a", "a*"] := by
  exact ⟨by decide, by decide, by decide⟩

/-- C4, amended: `key_findings` (resp. `insights`) is obtained by
concatenating, in dispatch order, the trimmed non-falsy findings (resp.
insights) of the non-error results, sanitizing each item, dropping items that
sanitize to empty, removing duplicates by equality of the *sanitized* strings
keeping first occurrences, and truncating to the first 10 (resp. 8); whenever
at least 10 distinct sanitized findings remain, `key_findings` has length
exactly 10. -/
theorem C4_amended (rs : List AgentDict) (ts : Nat) :
    (_consolidate_results rs ts).key_findings =
        (dedupFirst (((gatherFindings rs).map _clean_text).filter (fun t => t != ""))).take 10
    ∧ (_consolidate_results rs ts).insights =
        (dedupFirst (((gatherInsights rs).map _clean_text).filter (fun t => t != ""))).take 8
    ∧ (10 ≤ (dedupFirst (((gatherFindings rs).map _clean_text).filter (fun t => t != ""))).length →
        (_consolidate_results rs ts).key_findings.length = 10) := by
  refine ⟨?_, ?_, ?_⟩
  · rw [consolidate_key_findings, clean_list_items_eq]
  · rw [consolidate_insights, clean_list_items_eq]
  · intro h
    rw [consolidate_key_findings, clean_list_items_eq, List.length_take]
    omega

/-- Witness for `C4_amended` (cap clause) at a concrete input with 25 distinct
findings that sanitize to themselves. -/
theorem C4_witness :
    10 ≤ (dedupFirst ((((gatherFindings
        [({ agent_name := "x", findings :=
            ["aa", "ab", "ac", "ad", "ae", "af", "ag", "ah", "ai", "aj",
             "ak", "al", "am", "an", "ao", "ap", "aq", "ar", "as", "at",
             "au", "av", "aw", "ax", "ay"] } : AgentDict)]).map
          _clean_text)).filter (fun t => t != ""))).length
    ∧ (_consolidate_results
        [({ agent_name := "x", findings :=
            ["aa", "ab", "ac", "ad", "ae", "af", "ag", "ah", "ai", "aj",
             "ak", "al", "am", "an", "ao", "ap", "aq", "ar", "as", "at",
             "au", "av", "aw", "ax", "ay"] } : AgentDict)] 0).key_findings.length = 10 :=
  ⟨by decide,
    (C4_amended
      [({ agent_name := "x", findings :=
          ["aa", "ab", "ac", "ad", "ae", "af", "ag", "ah", "ai", "aj",
           "ak", "al", "am", "an", "ao", "ap", "aq", "ar", "as", "at",
           "au", "av", "aw", "ax", "ay"] } : AgentDict)] 0).2.2 (by decide)⟩

theorem find?_congr_pred {α : Type} (p q : α → Bool) :
    ∀ l : List α, (∀ x ∈ l, p x = q x) → l.find? p = l.find? q
  | [], _ => rfl
  | x :: rest, h => by
    have hx := h x (List.mem_cons_self x rest)
    rw [List.find?_cons, List.find?_cons, hx]
    cases q x with
    | true => rfl
    | false => exact find?_congr_pred p q rest (fun y hy => h y (List.mem_cons_of_mem _ hy))

/-- Every sanitizer output is already stripped (cleaning ends in a strip), so
the summaries an adapter places in its result dict — `_clean_text` outputs or
`""` — never change under a further strip. -/
theorem pyStrip_clean_text (s : String) :
    pyStrip (_clean_text s) = _clean_text s :=
  congrArg String.mk (pyStripChars_idem _)

/-- C3: summary selection priority for completed workflow runs.  Every
completed run satisfies the two domain hypotheses: summaries of agent results
are `_clean_text` outputs or `""`, hence fixed by stripping
(`pyStrip_clean_text`), and each registered agent is dispatched at most once,
so at most one result is named perplexity.  Under them the claim holds as
stated: (1) if the perplexity result is non-error with a non-empty summary,
the consolidated summary is that summary sanitized, regardless of its dispatch
position; (2) otherwise the first non-error result with a non-empty summary
supplies it, sanitized; (3) if no non-error result has a non-empty summary,
the consolidated summary is the fallback string with N = number of non-error
results. -/
theorem C3_summary_priority (rs : List AgentDict) (ts : Nat)
    (hstrip : ∀ r ∈ rs, pyStrip r.summary = r.summary)
    (huniq : (rs.filter (fun r => r.agent_name == "perplexity")).length ≤ 1) :
    (∀ p ∈ rs, p.agent_name = "perplexity" → hasError p = false →
        p.summary ≠ "" →
        (_consolidate_results rs ts).summary = _clean_text p.summary)
    ∧ ((∀ r ∈ rs, hasError r = false → r.summary ≠ "" →
          r.agent_name ≠ "perplexity") →
        ∀ p, rs.find? (fun r => !hasError r && r.summary != "") = some p →
          (_consolidate_results rs ts).summary = _clean_text p.summary)
    ∧ ((∀ r ∈ rs, hasError r = false → r.summary = "") →
        (_consolidate_results rs ts).summary =
          "Research completed using " ++
            toString (rs.filter (fun r => !hasError r)).length ++
            " specialized agents. Collected " ++ toString ts ++
            " sources from multiple channels.") := by
  have hpred : ∀ r ∈ rs, goodSummary r = (!hasError r && r.summary != "") := by
    intro r hr
    cases hb : r.summary != "" <;>
      simp [goodSummary, hstrip r hr, hb, Bool.and_assoc]
  refine ⟨?_, ?_, ?_⟩
  · intro p hp hname he hs
    have hgood : goodSummary p = true := by
      rw [hpred p hp, he]
      simpa using hs
    obtain ⟨l1, l2, rfl⟩ := List.append_of_mem hp
    have hgood' := goodSummary_iff.mp hgood
    have hl2 : ∀ r ∈ l2, r.agent_name ≠ "perplexity" := by
      intro r hr hcontr
      have hmem2 : r ∈ l2.filter (fun x => x.agent_name == "perplexity") :=
        List.mem_filter.mpr ⟨hr, by simp [hcontr]⟩
      have hlen2 : 0 < (l2.filter (fun x => x.agent_name == "perplexity")).length :=
        List.length_pos_of_mem hmem2
      rw [List.filter_append, List.length_append, List.filter_cons,
        if_pos (by simp [hname])] at huniq
      simp only [List.length_cons] at huniq
      omega
    have hbest : bestLoop (l1 ++ p :: l2) "" = p.summary := by
      rw [bestLoop_append]
      simp only [bestLoop]
      rw [if_neg (by simp [hgood'.1]), if_pos ⟨hgood'.2.1, hgood'.2.2⟩,
        if_pos (Or.inl hname)]
      exact bestLoop_of_ne l2 p.summary hgood'.2.1 (fun r hr _ => hl2 r hr)
    rw [consolidate_summary, hbest, if_pos hgood'.2.1]
  · intro hnp p hfind
    have hnp' : ∀ r ∈ rs, goodSummary r = true → r.agent_name ≠ "perplexity" := by
      intro r hr hg
      have hg' := goodSummary_iff.mp hg
      exact hnp r hr hg'.1 hg'.2.1
    have hfind' : rs.find? goodSummary = some p := by
      rw [find?_congr_pred goodSummary (fun r => !hasError r && r.summary != "")
        rs hpred]
      exact hfind
    have hgoodp := List.find?_some hfind'
    have hbest : bestLoop rs "" = p.summary := by
      rw [bestLoop_firstGood rs hnp', hfind']
    rw [consolidate_summary, hbest, if_pos (goodSummary_iff.mp hgoodp).2.1]
  · intro hall
    have hall' : ∀ r ∈ rs, goodSummary r = false := by
      intro r hr
      rw [hpred r hr]
      cases he : hasError r with
      | true => rfl
      | false => simp [hall r hr he]
    rw [consolidate_summary, bestLoop_of_none rs "" hall', if_neg (by simp)]
    rfl

/-- Witness for `C3_summary_priority` (perplexity-priority clause) at a
concrete input where perplexity is dispatched *after* another summary-bearing
agent. -/
theorem C3_witness :
    (_consolidate_results
        [({ agent_name := "youtube", summary := "S2" } : AgentDict),
         ({ agent_name := "perplexity", summary := "S1" } : AgentDict)] 0).summary
      = _clean_text "S1" :=
  (C3_summary_priority
    [({ agent_name := "youtube", summary := "S2" } : AgentDict),
     ({ agent_name := "perplexity", summary := "S1" } : AgentDict)] 0
    (by decide) (by decide)).1
    ({ agent_name := "perplexity", summary := "S1" } : AgentDict)
    (by decide) rfl rfl (by decide)

/- ------------------------------------------------------------------
Dispatcher layer.
------------------------------------------------------------------ -/

theorem execute_empty (q d : String) (sel : List String)
    (outcome : String → AdapterOutcome) (h : dispatchedIds sel = []) :
    execute q d sel outcome =
      { query := q, domain := d, agent_results := [], summary := "",
        key_findings := [], insights := [], total_sources := 0,
        total_cost := 0, total_tokens := 0,
        error := some "No agents selected for execution" } := by
  simp [execute, h]

theorem execute_nonempty (q d : String) (sel : List String)
    (outcome : String → AdapterOutcome) (h : ¬ dispatchedIds sel = []) :
    execute q d sel outcome =
      { query := q, domain := d,
        agent_results :=
          (processResponses ((dispatchedIds sel).map (fun a => (a, outcome a)))).1,
        summary :=
          (_consolidate_results
            (processResponses ((dispatchedIds sel).map (fun a => (a, outcome a)))).1
            (processResponses ((dispatchedIds sel).map (fun a => (a, outcome a)))).2.1).summary,
        key_findings :=
          (_consolidate_results
            (processResponses ((dispatchedIds sel).map (fun a => (a, outcome a)))).1
            (processResponses ((dispatchedIds sel).map (fun a => (a, outcome a)))).2.1).key_findings,
        insights :=
          (_consolidate_results
            (processResponses ((dispatchedIds sel).map (fun a => (a, outcome a)))).1
            (processResponses ((dispatchedIds sel).map (fun a => (a, outcome a)))).2.1).insights,
        total_sources :=
          (processResponses ((dispatchedIds sel).map (fun a => (a, outcome a)))).2.1,
        total_cost :=
          (processResponses ((dispatchedIds sel).map (fun a => (a, outcome a)))).2.2.1,
        total_tokens :=
          (processResponses ((dispatchedIds sel).map (fun a => (a, outcome a)))).2.2.2,
        error := none } := by
  simp [execute, h]

theorem processResponses_length : ∀ ps : List (String × AdapterOutcome),
    (processResponses ps).1.length = ps.length
  | [] => rfl
  | (name, Except.error e) :: rest => by
    simp only [processResponses, List.length_cons]
    rw [processResponses_length rest]
  | (name, Except.ok r) :: rest => by
    simp only [processResponses, List.length_cons]
    rw [processResponses_length rest]

theorem processResponses_names (outcome : String → AdapterOutcome)
    (hname : ∀ a r, outcome a = .ok r → r.agent_name = a) :
    ∀ ls : List String,
      (processResponses (ls.map (fun a => (a, outcome a)))).1.map
          AgentDict.agent_name = ls
  | [] => rfl
  | a :: rest => by
    simp only [List.map_cons]
    cases ho : outcome a with
    | error e =>
      simp only [processResponses, List.map_cons]
      rw [processResponses_names outcome hname rest]
    | ok r =>
      simp only [processResponses, List.map_cons]
      rw [processResponses_names outcome hname rest, hname a r ho]

theorem processResponses_mem_error (outcome : String → AdapterOutcome) :
    ∀ (ls : List String) (a msg : String), a ∈ ls → outcome a = .error msg →
      ({ agent_name := a, error := some msg } : AgentDict) ∈
        (processResponses (ls.map (fun x => (x, outcome x)))).1
  | [], a, msg, ha, _ => absurd ha (List.not_mem_nil a)
  | b :: rest, a, msg, ha, hmsg => by
    simp only [List.map_cons]
    rcases List.mem_cons.mp ha with hab | ha'
    · subst hab
      rw [hmsg]
      simp only [processResponses]
      exact List.mem_cons_self _ _
    · cases hb : outcome b with
      | error e =>
        simp only [processResponses]
        exact List.mem_cons_of_mem _
          (processResponses_mem_error outcome rest a msg ha' hmsg)
      | ok r =>
        simp only [processResponses]
        exact List.mem_cons_of_mem _
          (processResponses_mem_error outcome rest a msg ha' hmsg)

theorem processResponses_mem_ok (outcome : String → AdapterOutcome) :
    ∀ (ls : List String) (b : String) (rb : AgentDict), b ∈ ls →
      outcome b = .ok rb →
      rb ∈ (processResponses (ls.map (fun x => (x, outcome x)))).1
  | [], b, rb, hb, _ => absurd hb (List.not_mem_nil b)
  | c :: rest, b, rb, hb, hrb => by
    simp only [List.map_cons]
    rcases List.mem_cons.mp hb with hbc | hb'
    · subst hbc
      rw [hrb]
      simp only [processResponses]
      exact List.mem_cons_self _ _
    · cases hc : outcome c with
      | error e =>
        simp only [processResponses]
        exact List.mem_cons_of_mem _
          (processResponses_mem_ok outcome rest b rb hb' hrb)
      | ok r =>
        simp only [processResponses]
        exact List.mem_cons_of_mem _
          (processResponses_mem_ok outcome rest b rb hb' hrb)

theorem processResponses_totals (outcome : String → AdapterOutcome)
    (h : ∀ a r, outcome a = .ok r → hasError r = true →
      r.cost = 0 ∧ r.tokens = 0 ∧ r.sources = []) :
    ∀ ls : List String,
      (processResponses (ls.map (fun a => (a, outcome a)))).2.1 =
          (((processResponses (ls.map (fun a => (a, outcome a)))).1.filter
              (fun r => !hasError r)).map (fun r => r.sources.length)).sum
      ∧ (processResponses (ls.map (fun a => (a, outcome a)))).2.2.1 =
          (((processResponses (ls.map (fun a => (a, outcome a)))).1.filter
              (fun r => !hasError r)).map AgentDict.cost).sum
      ∧ (processResponses (ls.map (fun a => (a, outcome a)))).2.2.2 =
          (((processResponses (ls.map (fun a => (a, outcome a)))).1.filter
              (fun r => !hasError r)).map AgentDict.tokens).sum
  | [] => ⟨rfl, rfl, rfl⟩
  | a :: rest => by
    obtain ⟨IH1, IH2, IH3⟩ := processResponses_totals outcome h rest
    simp only [List.map_cons]
    cases ho : outcome a with
    | error e =>
      simp only [processResponses]
      by_cases he : hasError { agent_name := a, error := some e } = true
      · rw [List.filter_cons, if_neg (by simp [he])]
        exact ⟨IH1, IH2, IH3⟩
      · have he' : hasError { agent_name := a, error := some e } = false := by
          simpa using he
        rw [List.filter_cons, if_pos (by simp [he'])]
        simp only [List.map_cons, List.sum_cons]
        refine ⟨?_, ?_, ?_⟩
        · simpa using IH1
        · simpa using IH2
        · simpa using IH3
    | ok r =>
      simp only [processResponses]
      by_cases he : hasError r = true
      · obtain ⟨hc, ht, hs⟩ := h a r ho he
        rw [List.filter_cons, if_neg (by simp [he])]
        refine ⟨?_, ?_, ?_⟩
        · rw [hs]; simpa using IH1
        · rw [hc]; simpa using IH2
        · rw [ht]; simpa using IH3
      · rw [List.filter_cons, if_pos (by simp [he])]
        simp only [List.map_cons, List.sum_cons]
        refine ⟨?_, ?_, ?_⟩
        · rw [IH1]
        · rw [IH2]
        · rw [IH3]

/-- C1, counterexample: `agent_results` is NOT ordered by the request order of
`agent_selection`.  Requesting `["youtube", "perplexity"]` yields results in
the fixed registry order `["perplexity", "youtube"]`: the result of the first
requested id (`youtube`) does not precede that of the second. -/
theorem C1_counterexample :
    ((execute "q" "d" ["youtube", "perplexity"] okNamed).agent_results.map
        AgentDict.agent_name = ["perplexity", "youtube"])
    ∧ (["perplexity", "youtube"] : List String) ≠ ["youtube", "perplexity"] :=
  ⟨by decide, by decide⟩

/-- C1, amended: when at least one requested id is registered, the returned
`agent_results` are ordered by the fixed registry order (perplexity, youtube,
api) restricted to the selected ids — which is the request order only when the
request lists them in that canonical order; completion order plays no role. -/
theorem C1_amended (q d : String) (sel : List String)
    (outcome : String → AdapterOutcome)
    (hname : ∀ a r, outcome a = .ok r → r.agent_name = a)
    (hne : dispatchedIds sel ≠ []) :
    (execute q d sel outcome).agent_results.map AgentDict.agent_name =
      dispatchedIds sel := by
  rw [execute_nonempty q d sel outcome hne]
  exact processResponses_names outcome hname (dispatchedIds sel)

/-- Witness for `C1_amended` at a concrete out-of-registry-order request. -/
theorem C1_witness :
    (execute "q" "d" ["youtube", "perplexity"] okNamed).agent_results.map
        AgentDict.agent_name = ["perplexity", "youtube"] := by
  have h := C1_amended "q" "d" ["youtube", "perplexity"] okNamed
    (fun a r hr => by injection hr with h2; rw [← h2]) (by decide)
  rw [h]
  decide

/-- C5: the aggregates sum `cost`/`tokens`/`len(sources)` over exactly the
non-error agent results (assuming — as every adapter guarantees — that a dict
result carrying an error has zero cost/tokens and no sources), and error
results still appear in `agent_results` (one result per dispatched id). -/
theorem C5_aggregates (q d : String) (sel : List String)
    (outcome : String → AdapterOutcome)
    (h : ∀ a r, outcome a = .ok r → hasError r = true →
      r.cost = 0 ∧ r.tokens = 0 ∧ r.sources = []) :
    (execute q d sel outcome).total_sources =
        (((execute q d sel outcome).agent_results.filter
            (fun r => !hasError r)).map (fun r => r.sources.length)).sum
    ∧ (execute q d sel outcome).total_cost =
        (((execute q d sel outcome).agent_results.filter
            (fun r => !hasError r)).map AgentDict.cost).sum
    ∧ (execute q d sel outcome).total_tokens =
        (((execute q d sel outcome).agent_results.filter
            (fun r => !hasError r)).map AgentDict.tokens).sum
    ∧ (execute q d sel outcome).agent_results.length =
        (dispatchedIds sel).length := by
  by_cases hne : dispatchedIds sel = []
  · rw [execute_empty q d sel outcome hne, hne]
    exact ⟨rfl, rfl, rfl, rfl⟩
  · rw [execute_nonempty q d sel outcome hne]
    obtain ⟨h1, h2, h3⟩ := processResponses_totals outcome h (dispatchedIds sel)
    refine ⟨h1, h2, h3, ?_⟩
    rw [processResponses_length, List.length_map]

/-- Witness for `C5_aggregates` at `mixedOutcome`: one successful agent
(cost 3/2, 5 tokens, one source) and one agent returning an error dict with
zeroed fields.  (The cost conjunct is kept as the sum expression: rational
arithmetic does not reduce under kernel evaluation.) -/
theorem C5_witness :
    (execute "q" "d" ["perplexity", "youtube"] mixedOutcome).total_tokens = 5
    ∧ (execute "q" "d" ["perplexity", "youtube"] mixedOutcome).total_sources = 1
    ∧ (execute "q" "d" ["perplexity", "youtube"] mixedOutcome).agent_results.length = 2
    ∧ (execute "q" "d" ["perplexity", "youtube"] mixedOutcome).total_cost =
        (List.map AgentDict.cost (List.filter (fun r => !hasError r)
          (execute "q" "d" ["perplexity", "youtube"] mixedOutcome).agent_results)).sum := by
  have hz : ∀ a r, mixedOutcome a = .ok r → hasError r = true →
      r.cost = 0 ∧ r.tokens = 0 ∧ r.sources = [] := by
    intro a r hr he
    rw [mixedOutcome] at hr
    by_cases hap : a = "perplexity"
    · rw [if_pos hap] at hr
      injection hr with h2
      rw [← h2] at he
      exact absurd he (by decide)
    · rw [if_neg hap] at hr
      injection hr with h2
      rw [← h2]
      exact ⟨rfl, rfl, rfl⟩
  obtain ⟨h1, h2, h3, h4⟩ := C5_aggregates "q" "d" ["perplexity", "youtube"] _ hz
  exact ⟨by rw [h3]; decide, by rw [h1]; decide, by rw [h4]; decide, h2⟩

/-- C7: requested ids not in the registry are skipped silently (each dispatched
registry id yields exactly one result, so unknown ids yield none); when no
requested id is registered, the result carries the
"No agents selected for execution" error with empty `agent_results`, zeroed
aggregates and empty summary/findings/insights — the consolidation step is not
run (it would otherwise synthesize a non-empty fallback summary). -/
theorem C7_unknown_skip (q d : String) (sel : List String)
    (outcome : String → AdapterOutcome) :
    ((∀ s ∈ sel, pyLower s ∉ registryOrder) →
      (execute q d sel outcome).error = some "No agents selected for execution"
      ∧ (execute q d sel outcome).agent_results = []
      ∧ (execute q d sel outcome).total_sources = 0
      ∧ (execute q d sel outcome).total_cost = 0
      ∧ (execute q d sel outcome).total_tokens = 0
      ∧ (execute q d sel outcome).summary = ""
      ∧ (execute q d sel outcome).key_findings = []
      ∧ (execute q d sel outcome).insights = [])
    ∧ (execute q d sel outcome).agent_results.length =
        (dispatchedIds sel).length := by
  constructor
  · intro hall
    have hne : dispatchedIds sel = [] := by
      rw [dispatchedIds, List.filter_eq_nil_iff]
      intro a ha hcont
      have hmem : a ∈ sel.map pyLower := by simpa using hcont
      obtain ⟨s, hs, hsa⟩ := List.mem_map.mp hmem
      exact hall s hs (hsa ▸ ha)
    rw [execute_empty q d sel outcome hne]
    exact ⟨rfl, rfl, rfl, rfl, rfl, rfl, rfl, rfl⟩
  · by_cases hne : dispatchedIds sel = []
    · rw [execute_empty q d sel outcome hne, hne]
      rfl
    · rw [execute_nonempty q d sel outcome hne, processResponses_length,
        List.length_map]

/-- Witness for `C7_unknown_skip` with only an unknown agent id requested. -/
theorem C7_witness :
    (execute "q" "d" ["foo"] okNamed).error =
      some "No agents selected for execution"
    ∧ (execute "q" "d" ["foo"] okNamed).summary = "" := by
  have h := (C7_unknown_skip "q" "d" ["foo"] okNamed).1 (by decide)
  exact ⟨h.1, h.2.2.2.2.2.1⟩

/-- C8, counterexample: an empty-after-trimming query is NOT reported as a
result-level error — `execute` never validates the query, so with a registered
agent selected the returned result has no error field at all. -/
theorem C8_counterexample :
    pyStrip "" = ""
    ∧ (execute "" "technology" ["perplexity"] okNamed).error = none :=
  ⟨rfl, by decide⟩

/-- C8, amended: `execute` validates only the agent selection.  The result's
error field is `"No agents selected for execution"` exactly when no requested
id is registered (in particular when `agent_ids` is empty), and `none`
otherwise; it never depends on the query, so an empty or whitespace query is
not reported (callers validate the query in the UI layer instead).  No input
raises: `execute` is a total function. -/
theorem C8_amended (q d : String) (sel : List String)
    (outcome : String → AdapterOutcome) :
    (execute q d sel outcome).error =
      (if dispatchedIds sel = [] then some "No agents selected for execution"
       else none) := by
  by_cases hne : dispatchedIds sel = []
  · rw [execute_empty q d sel outcome hne, if_pos hne]
  · rw [execute_nonempty q d sel outcome hne, if_neg hne]

/-- C9, counterexample: when an adapter coroutine raises, the dispatcher
stores `str(e)` itself in the error field — not
`"<agent_id> failed: <message>"` as the claim states. -/
theorem C9_counterexample :
    ((execute "q" "d" ["perplexity"]
        (fun _ => .error "boom")).agent_results.map (fun r => r.error)) =
      [some "boom"]
    ∧ ("boom" : String) ≠ "perplexity failed: boom" :=
  ⟨by decide, by decide⟩

/-- C9, amended: an exception escaping a dispatched adapter is caught and
becomes an AgentResult with `agent_name = <agent_id>`,
`error = <message>` (the exception's `str`), empty sources and zero
cost/tokens, while every other agent's returned dict still appears in
`agent_results` unchanged. -/
theorem C9_amended (q d : String) (sel : List String)
    (outcome : String → AdapterOutcome) (a msg : String)
    (ha : a ∈ dispatchedIds sel) (hmsg : outcome a = .error msg) :
    (∃ r ∈ (execute q d sel outcome).agent_results,
        r.agent_name = a ∧ r.error = some msg ∧ r.sources = []
          ∧ r.cost = 0 ∧ r.tokens = 0)
    ∧ (∀ b rb, b ∈ dispatchedIds sel → outcome b = .ok rb →
        rb ∈ (execute q d sel outcome).agent_results) := by
  have hne : dispatchedIds sel ≠ [] := fun hn => by
    rw [hn] at ha
    exact absurd ha (List.not_mem_nil a)
  rw [execute_nonempty q d sel outcome hne]
  constructor
  · exact ⟨_, processResponses_mem_error outcome _ a msg ha hmsg,
      rfl, rfl, rfl, rfl, rfl⟩
  · intro b rb hb hrb
    exact processResponses_mem_ok outcome _ b rb hb hrb

/-- Witness for `C9_amended`: perplexity raises `"boom"` while youtube
returns normally. -/
theorem C9_witness :
    ∃ r ∈ (execute "q" "d" ["perplexity", "youtube"]
        raisingOutcome).agent_results,
      r.agent_name = "perplexity" ∧ r.error = some "boom" ∧ r.sources = []
        ∧ r.cost = 0 ∧ r.tokens = 0 :=
  (C9_amended "q" "d" ["perplexity", "youtube"] raisingOutcome
    "perplexity" "boom" (by decide) (if_pos rfl)).1

/-- C10: agent selection is case-insensitive and duplicate-insensitive — a
registered id contributes exactly one agent result when it occurs (in any
letter case, any number of times) in the selection, and none otherwise. -/
theorem C10_selection (q d : String) (sel : List String)
    (outcome : String → AdapterOutcome)
    (hname : ∀ a r, outcome a = .ok r → r.agent_name = a)
    (a : String) (ha : a ∈ registryOrder) :
    ((execute q d sel outcome).agent_results.map AgentDict.agent_name).count a =
      (if (sel.map pyLower).contains a then 1 else 0) := by
  have hcount : (dispatchedIds sel).count a =
      (if (sel.map pyLower).contains a then 1 else 0) := by
    by_cases hc : (sel.map pyLower).contains a = true
    · rw [if_pos hc, dispatchedIds, List.count_filter hc]
      have ha' : a = "perplexity" ∨ a = "youtube" ∨ a = "api" := by
        simpa [registryOrder] using ha
      rcases ha' with ha' | ha' | ha' <;> subst ha' <;> decide
    · rw [if_neg (by simpa using hc), List.count_eq_zero]
      intro hmem
      exact hc (List.mem_filter.mp hmem).2
  by_cases hne : dispatchedIds sel = []
  · rw [execute_empty q d sel outcome hne]
    rw [← hcount, hne]
    rfl
  · rw [execute_nonempty q d sel outcome hne,
      processResponses_names outcome hname, hcount]

/-- Witness for `C10_selection`: `"perplexity"` requested twice in different
cases is dispatched exactly once. -/
theorem C10_witness :
    ((execute "q" "d" ["PERPLEXITY", "Perplexity", "api"]
        okNamed).agent_results.map
        AgentDict.agent_name).count "perplexity" = 1 := by
  have h := C10_selection "q" "d" ["PERPLEXITY", "Perplexity", "api"] okNamed
    (fun a r hr => by injection hr with h2; rw [← h2]) "perplexity" (by decide)
  rw [h]
  decide

/-- C6: the three adapters are total functions into `AgentDict` (no upstream
outcome — exception, missing credential, empty or malformed payload — escapes
as an exception in the model, which mirrors the source's all-enclosing
`try/except`), and whenever the returned dict has its error field set, its
sources are empty and cost and tokens are zero. -/
theorem C6_error_contract :
    (∀ (imp : Option String) (key : Option String)
        (call : Upstream (Option PerplexityResult)),
      (_execute_perplexity imp key call).error ≠ none →
        (_execute_perplexity imp key call).sources = []
          ∧ (_execute_perplexity imp key call).cost = 0
          ∧ (_execute_perplexity imp key call).tokens = 0)
    ∧ (∀ (key : Option String) (call : Upstream (Option YoutubeData)),
      (_execute_youtube key call).error ≠ none →
        (_execute_youtube key call).sources = []
          ∧ (_execute_youtube key call).cost = 0
          ∧ (_execute_youtube key call).tokens = 0)
    ∧ (∀ (imp : Option String) (call : Upstream (Option ApiResult)),
      (_execute_api imp call).error ≠ none →
        (_execute_api imp call).sources = []
          ∧ (_execute_api imp call).cost = 0
          ∧ (_execute_api imp call).tokens = 0) := by
  refine ⟨?_, ?_, ?_⟩
  · intro imp key call h
    cases imp with
    | some m => exact ⟨rfl, rfl, rfl⟩
    | none =>
      cases key with
      | none => exact ⟨rfl, rfl, rfl⟩
      | some k =>
        cases call with
        | raise b m => cases b <;> exact ⟨rfl, rfl, rfl⟩
        | ret v =>
          cases v with
          | none => exact ⟨rfl, rfl, rfl⟩
          | some r =>
            cases hs : r.success with
            | false =>
              refine ⟨?_, ?_, ?_⟩ <;> simp [_execute_perplexity, hs, errResult]
            | true =>
              exfalso
              apply h
              simp [_execute_perplexity, hs]
  · intro key call h
    cases key with
    | none => exact ⟨rfl, rfl, rfl⟩
    | some k =>
      cases call with
      | raise b m => exact ⟨rfl, rfl, rfl⟩
      | ret v =>
        exfalso
        apply h
        simp [_execute_youtube]
  · intro imp call h
    cases imp with
    | some m => exact ⟨rfl, rfl, rfl⟩
    | none =>
      cases call with
      | raise b m => cases b <;> exact ⟨rfl, rfl, rfl⟩
      | ret v =>
        cases v with
        | none => exact ⟨rfl, rfl, rfl⟩
        | some r =>
          exfalso
          apply h
          simp [_execute_api]

/-- Witness for `C6_error_contract`: an `ImportError` at the perplexity
adapter's import statement yields an error dict with empty sources and zero
cost/tokens. -/
theorem C6_witness :
    (_execute_perplexity (some "boom") none (.ret none)).error ≠ none
    ∧ ((_execute_perplexity (some "boom") none (.ret none)).sources = []
      ∧ (_execute_perplexity (some "boom") none (.ret none)).cost = 0
      ∧ (_execute_perplexity (some "boom") none (.ret none)).tokens = 0) :=
  ⟨by decide, C6_error_contract.1 (some "boom") none (.ret none) (by decide)⟩

end MultiAgent
